import Mathlib

/-!
Verification of the `umi_rx` program (`src/umi_rx.c`): a single-pass BAM
stream transformer that extracts the UMI token (the suffix of the read name
after the last colon) and appends it as an `RX:Z:` auxiliary field to each
record before writing it out.

The embedding models the program from the point where both files are open:
the header transfer, the per-record loop (`for (read_num = 0;
sam_read1(in, header, aln) > 0; read_num++)`), the diagnostics it prints,
and the close sequence at the end.  External I/O outcomes (read results,
append/write success, close success) are inputs of the model, so the
program's behaviour is a pure function of an environment.
-/

namespace UmiRx

/-- Fields of `bam1_core_t` used by the program: reference index `tid`
(`aln->core.tid`, may be negative for unmapped reads) and 0-based
position `pos` (`aln->core.pos`). -/
structure BamCore where
  tid : Int
  pos : Int
deriving DecidableEq, Repr

/-- One alignment record (`bam1_t`).  `qname` is the read name
(`bam_get_qname`), `aux` the byte region of auxiliary fields, and `rest`
stands for all remaining serialized bytes of the record (flags, cigar,
sequence, qualities, ...), which the program never touches. -/
structure Bam1 where
  core : BamCore
  qname : String
  aux : List Nat
  rest : List Nat
deriving DecidableEq, Repr

/-- The SAM header (`sam_hdr_t`): the program reads only
`header->target_name`, the array of reference sequence names. -/
structure Header where
  target_name : List String
deriving DecidableEq, Repr

/-- Total embedding of `header->target_name[aln->core.tid]`.  The C code
indexes the array unconditionally; indexing with a negative `tid` (an
unmapped record has `tid = -1`) or one at or past `n_targets` reads out of
bounds, so the total model returns `none` there. -/
def lookupChr (header : Header) (tid : Int) : Option String :=
  if h : 0 ≤ tid ∧ tid.toNat < header.target_name.length then
    some (header.target_name.get ⟨tid.toNat, h.2⟩)
  else none

/-- Embedding of `strrchr(read_name, c)` followed by `umi++`: the suffix of
the string strictly after the LAST occurrence of `c`, or `none` when `c`
does not occur. -/
def strrchrAfter : List Char → Char → Option (List Char)
  | [], _ => none
  | a :: rest, c =>
    match strrchrAfter rest c with
    | some t => some t
    | none => if a = c then some rest else none

/-- The bytes handed to `bam_aux_append`: the C code passes `umi`, a
null-terminated C string, with length `strlen(umi) + 1`, so the payload is
the token bytes followed by the terminating null byte. -/
def rxPayload (umi : List Char) : List Nat :=
  umi.map Char.toNat ++ [0]

/-- Modelled from the spec: the byte layout of one appended auxiliary field
in the Auxiliary-Field Mutator (`bam_aux_append` of htslib, an external
collaborator whose source is not part of this repository).  Per spec §4.2
the region grows by the 2-byte tag, the type code and exactly `len` payload
bytes. -/
def auxField (tag : String) (typ : Char) (len : Nat) (data : List Nat) : List Nat :=
  tag.data.map Char.toNat ++ [typ.toNat] ++ data.take len

/-- Modelled from the spec: `bam_aux_append(aln, tag, type, len, data)`
(htslib, external collaborator).  Per spec §4.2 it appends one field to the
auxiliary region, preserving all prior bytes verbatim and in order and
leaving the record's other attributes untouched; per §4.3 it never
deduplicates. -/
def bam_aux_append (aln : Bam1) (tag : String) (typ : Char) (len : Nat) (data : List Nat) : Bam1 :=
  { aln with aux := aln.aux ++ auxField tag typ len data }

/-- The successful per-record transformation: append the `RX:Z` field
carrying the UMI token and its terminating null, declared length
`strlen(umi) + 1`.  When the read name has no colon the record is returned
unchanged (the loop aborts on that branch before any mutation). -/
def transform (r : Bam1) : Bam1 :=
  match strrchrAfter r.qname.data ':' with
  | some umi => bam_aux_append r "RX" 'Z' (umi.length + 1) (rxPayload umi)
  | none => r

/-- The progress interval of the source: `if( read_num % 1 == 0 )`. -/
def progressN : Nat := 1

/-- The diagnostic context printed by the program's messages:
`read_number=%ld, chr='%s', pos=%d, read_name='%s'`.  `read_number` is the
loop counter (starting at 0), `chr` the (total) reference-name lookup,
`pos` is `aln->core.pos + 1`. -/
structure Diag where
  read_number : Nat
  chr : Option String
  pos : Int
  read_name : String
deriving DecidableEq, Repr

/-- The extended diagnostic printed by the warning and progress lines,
which additionally show `umi(length=%d)='%s'`. -/
structure UmiDiag where
  base : Diag
  umilen : Nat
  umi : String
deriving DecidableEq, Repr

/-- The fatal error conditions of the program, one per `exit(1)` site. -/
inductive Fatal where
  | headerRead
  | headerWrite
  | noDelim (d : Diag)
  | appendFail
  | writeFail (d : Diag)
  | closeOutFail
  | closeInFail
deriving DecidableEq, Repr

/-- Whether a fatal error is one of the two close failures at the end of a
normal run (as opposed to a failure during header transfer or the loop). -/
def Fatal.isCloseFail : Fatal → Bool
  | .closeOutFail => true
  | .closeInFail => true
  | _ => false

/-- A close attempt on one of the two open handles (`hts_close(out)` /
`hts_close(in)`). -/
inductive CloseEv where
  | closeOut
  | closeIn
deriving DecidableEq, Repr

/-- Result of one loop run: `ok n` when `sam_read1` returned a non-positive
value after `n` records (the loop exits normally, `read_num = n`), or a
fatal error. -/
inductive LoopRes where
  | ok (n : Nat)
  | fail (f : Fatal)
deriving DecidableEq, Repr

/-- Everything the loop produced: records written to the output, progress
lines printed to stdout, warning lines printed to stderr, and how the loop
ended. -/
structure LoopOut where
  written : List Bam1
  progress : List UmiDiag
  warnings : List UmiDiag
  result : LoopRes
deriving DecidableEq, Repr

/-- The record-processing loop of `main`.  The input stream is the sequence
of `sam_read1` results: `Except.ok aln` for a positive return with record
`aln`, `Except.error e` for a non-positive return `e` (end of stream or
read error) — the loop condition `sam_read1(...) > 0` stops on either.
`appendOk i` / `writeOk i` tell whether `bam_aux_append` / `sam_write1`
succeed for the record with `read_num = i`. -/
def loop (header : Header) (appendOk writeOk : Nat → Bool) :
    Nat → List (Except Int Bam1) → LoopOut
  | read_num, [] => ⟨[], [], [], .ok read_num⟩
  | read_num, .error _ :: _ => ⟨[], [], [], .ok read_num⟩
  | read_num, .ok aln :: stream =>
    let read_name := aln.qname
    let pos : Int := aln.core.pos + 1
    let chr := lookupChr header aln.core.tid
    let d : Diag := ⟨read_num, chr, pos, read_name⟩
    match strrchrAfter read_name.data ':' with
    | none => ⟨[], [], [], .fail (.noDelim d)⟩
    | some umi =>
      let umilen := umi.length + 1
      let warns := if umilen ≠ 7 then [UmiDiag.mk d umilen ⟨umi⟩] else []
      let progs := if read_num % progressN == 0 then [UmiDiag.mk d umilen ⟨umi⟩] else []
      if appendOk read_num then
        let aln2 := bam_aux_append aln "RX" 'Z' umilen (rxPayload umi)
        if writeOk read_num then
          let r := loop header appendOk writeOk (read_num + 1) stream
          ⟨aln2 :: r.written, progs ++ r.progress, warns ++ r.warnings, r.result⟩
        else ⟨[], progs, warns, .fail (.writeFail d)⟩
      else ⟨[], progs, warns, .fail .appendFail⟩

/-- The environment of one run, from the point where both files are open:
the header read result, whether the header write succeeds, the stream of
`sam_read1` results, per-record append/write success, and the two close
results. -/
structure Env where
  headerOpt : Option Header
  headerWriteOk : Bool
  input : List (Except Int Bam1)
  appendOk : Nat → Bool
  writeOk : Nat → Bool
  closeOutOk : Bool
  closeInOk : Bool

/-- Observable outcome of a run: whether the header was written, the
records written after it, stdout progress lines, stderr warnings, the
`Finished: %ld reads processed` message (with its count) when printed, the
close attempts in order, the exit status, and the fatal error if any. -/
structure RunResult where
  headerWritten : Bool
  written : List Bam1
  progress : List UmiDiag
  warnings : List UmiDiag
  finishedMsg : Option Nat
  closes : List CloseEv
  exitCode : Nat
  fatal : Option Fatal
deriving DecidableEq, Repr

/-- The body of `main` after both `hts_open` calls: read header (fatal on
failure, nothing written), write header (fatal on failure), run the loop,
then print the summary and close output before input, each close failure
being fatal.  Every `exit(1)` site terminates the process immediately: no
close attempt is made on any error path before the closes themselves. -/
def run (env : Env) : RunResult :=
  match env.headerOpt with
  | none => ⟨false, [], [], [], none, [], 1, some .headerRead⟩
  | some header =>
    if env.headerWriteOk then
      let l := loop header env.appendOk env.writeOk 0 env.input
      match l.result with
      | .fail f => ⟨true, l.written, l.progress, l.warnings, none, [], 1, some f⟩
      | .ok n =>
        if env.closeOutOk then
          if env.closeInOk then
            ⟨true, l.written, l.progress, l.warnings, some n, [.closeOut, .closeIn], 0, none⟩
          else
            ⟨true, l.written, l.progress, l.warnings, some n, [.closeOut, .closeIn], 1, some .closeInFail⟩
        else
          ⟨true, l.written, l.progress, l.warnings, some n, [.closeOut], 1, some .closeOutFail⟩
    else ⟨false, [], [], [], none, [], 1, some .headerWrite⟩

/-- The oracle for environments where every append and write succeeds. -/
def oracleTrue : Nat → Bool := fun _ => true

/-- An environment with a good header, a given input stream, and all
append/write/close operations succeeding. -/
def mkEnv (header : Header) (input : List (Except Int Bam1)) : Env :=
  ⟨some header, true, input, oracleTrue, oracleTrue, true, true⟩

/-- A read name has a UMI iff it contains the colon delimiter. -/
def hasDelim (r : Bam1) : Bool :=
  (strrchrAfter r.qname.data ':').isSome

/-- The diagnostic context the loop body builds for the record with
counter value `n`. -/
def stepDiag (header : Header) (n : Nat) (r : Bam1) : Diag :=
  ⟨n, lookupChr header r.core.tid, r.core.pos + 1, r.qname⟩

/-- The warning lines the loop body emits for one record (one line exactly
when the UMI length check `umilen != 7` fires). -/
def warnOf (header : Header) (n : Nat) (r : Bam1) : List UmiDiag :=
  match strrchrAfter r.qname.data ':' with
  | some umi =>
    if umi.length + 1 ≠ 7 then [⟨stepDiag header n r, umi.length + 1, ⟨umi⟩⟩] else []
  | none => []

/-- The progress lines the loop body emits for one record (one line exactly
when `read_num % progressN == 0`). -/
def progOf (header : Header) (n : Nat) (r : Bam1) : List UmiDiag :=
  match strrchrAfter r.qname.data ':' with
  | some umi =>
    if n % progressN == 0 then [⟨stepDiag header n r, umi.length + 1, ⟨umi⟩⟩] else []
  | none => []

/-- All warning lines emitted while processing a list of records starting
at counter value `n`. -/
def warnsOf (header : Header) : Nat → List Bam1 → List UmiDiag
  | _, [] => []
  | n, r :: rs => warnOf header n r ++ warnsOf header (n + 1) rs

/-- All progress lines emitted while processing a list of records starting
at counter value `n`. -/
def progsOf (header : Header) : Nat → List Bam1 → List UmiDiag
  | _, [] => []
  | n, r :: rs => progOf header n r ++ progsOf header (n + 1) rs

theorem rxPayload_length (umi : List Char) : (rxPayload umi).length = umi.length + 1 := by
  simp [rxPayload]

theorem auxField_rx (umi : List Char) :
    auxField "RX" 'Z' (umi.length + 1) (rxPayload umi) =
      ['R'.toNat, 'X'.toNat, 'Z'.toNat] ++ umi.map Char.toNat ++ [0] := by
  have hlen : (umi.map Char.toNat ++ [0]).length = umi.length + 1 := by simp
  have h : (umi.map Char.toNat ++ [0]).take (umi.length + 1) = umi.map Char.toNat ++ [0] := by
    rw [← hlen, List.take_length]
  simp [auxField, rxPayload, h]

theorem transform_of_some (r : Bam1) (umi : List Char)
    (h : strrchrAfter r.qname.data ':' = some umi) :
    transform r =
      ⟨r.core, r.qname,
        r.aux ++ (['R'.toNat, 'X'.toNat, 'Z'.toNat] ++ umi.map Char.toNat ++ [0]), r.rest⟩ := by
  simp [transform, h, bam_aux_append, auxField_rx]

theorem transform_core (r : Bam1) : (transform r).core = r.core := by
  unfold transform; split <;> rfl

theorem transform_qname (r : Bam1) : (transform r).qname = r.qname := by
  unfold transform; split <;> rfl

theorem transform_rest (r : Bam1) : (transform r).rest = r.rest := by
  unfold transform; split <;> rfl

theorem loop_nil (header : Header) (ao wo : Nat → Bool) (n : Nat) :
    loop header ao wo n [] = ⟨[], [], [], .ok n⟩ := rfl

theorem loop_err (header : Header) (ao wo : Nat → Bool) (n : Nat) (e : Int)
    (stream : List (Except Int Bam1)) :
    loop header ao wo n (.error e :: stream) = ⟨[], [], [], .ok n⟩ := rfl

theorem loop_ok_prefix (header : Header) (recs : List Bam1) (l : List (Except Int Bam1)) (n : Nat)
    (h : ∀ r ∈ recs, hasDelim r = true) :
    loop header oracleTrue oracleTrue n (recs.map Except.ok ++ l) =
      ⟨recs.map transform ++ (loop header oracleTrue oracleTrue (n + recs.length) l).written,
       progsOf header n recs ++ (loop header oracleTrue oracleTrue (n + recs.length) l).progress,
       warnsOf header n recs ++ (loop header oracleTrue oracleTrue (n + recs.length) l).warnings,
       (loop header oracleTrue oracleTrue (n + recs.length) l).result⟩ := by
  induction recs generalizing n with
  | nil => simp [progsOf, warnsOf]
  | cons a rs ih =>
    have ha : hasDelim a = true := h a (List.mem_cons_self a rs)
    obtain ⟨umi, humi⟩ := Option.isSome_iff_exists.mp ha
    have hrs : ∀ r ∈ rs, hasDelim r = true := fun r hr => h r (List.mem_cons_of_mem a hr)
    have ihn := ih (n + 1) hrs
    have harith : n + 1 + rs.length = n + (rs.length + 1) := by omega
    rw [harith] at ihn
    simp only [List.map_cons, List.cons_append, loop, humi, oracleTrue, if_true,
      List.append_eq, ihn, progsOf, warnsOf, List.length_cons, LoopOut.mk.injEq]
    refine ⟨?_, ?_, ?_, trivial⟩
    · rw [transform_of_some a umi humi]
      simp [bam_aux_append, auxField_rx]
    · simp [progOf, humi, stepDiag, List.append_assoc]
    · simp [warnOf, humi, stepDiag, List.append_assoc]

theorem loop_noDelim (header : Header) (ao wo : Nat → Bool) (n : Nat) (bad : Bam1)
    (stream : List (Except Int Bam1)) (hbad : strrchrAfter bad.qname.data ':' = none) :
    loop header ao wo n (.ok bad :: stream) =
      ⟨[], [], [], .fail (.noDelim (stepDiag header n bad))⟩ := by
  simp [loop, hbad, stepDiag]

theorem run_allOk (header : Header) (recs : List Bam1)
    (h : ∀ r ∈ recs, hasDelim r = true) :
    run (mkEnv header (recs.map Except.ok)) =
      ⟨true, recs.map transform, progsOf header 0 recs, warnsOf header 0 recs,
        some recs.length, [.closeOut, .closeIn], 0, none⟩ := by
  have hl := loop_ok_prefix header recs [] 0 h
  rw [List.append_nil] at hl
  simp [run, mkEnv, hl, loop_nil]

theorem run_okPrefixErr (header : Header) (recs : List Bam1) (e : Int)
    (rest : List (Except Int Bam1)) (h : ∀ r ∈ recs, hasDelim r = true) :
    run (mkEnv header (recs.map Except.ok ++ .error e :: rest)) =
      ⟨true, recs.map transform, progsOf header 0 recs, warnsOf header 0 recs,
        some recs.length, [.closeOut, .closeIn], 0, none⟩ := by
  have hl := loop_ok_prefix header recs (.error e :: rest) 0 h
  rw [loop_err] at hl
  simp [run, mkEnv, hl]

theorem run_noDelim (header : Header) (pre : List Bam1) (bad : Bam1) (rest : List Bam1)
    (hpre : ∀ r ∈ pre, hasDelim r = true)
    (hbad : strrchrAfter bad.qname.data ':' = none) :
    run (mkEnv header ((pre ++ bad :: rest).map Except.ok)) =
      ⟨true, pre.map transform, progsOf header 0 pre, warnsOf header 0 pre,
        none, [], 1, some (.noDelim (stepDiag header pre.length bad))⟩ := by
  have hl := loop_ok_prefix header pre (.ok bad :: rest.map Except.ok) 0 hpre
  rw [loop_noDelim header oracleTrue oracleTrue (0 + pre.length) bad (rest.map Except.ok) hbad]
    at hl
  have hin : (pre ++ bad :: rest).map Except.ok =
      pre.map Except.ok ++ (Except.ok bad : Except Int Bam1) :: rest.map Except.ok := by
    simp
  rw [hin]
  simp [run, mkEnv, hl]

theorem warnsOf_append (header : Header) (a b : List Bam1) (n : Nat) :
    warnsOf header n (a ++ b) = warnsOf header n a ++ warnsOf header (n + a.length) b := by
  induction a generalizing n with
  | nil => simp [warnsOf]
  | cons x xs ih =>
    simp only [List.cons_append, warnsOf, List.append_eq, ih (n + 1), List.length_cons,
      List.append_assoc]
    have : n + 1 + xs.length = n + (xs.length + 1) := by omega
    rw [this]

theorem progsOf_length (header : Header) (recs : List Bam1) (n : Nat)
    (h : ∀ r ∈ recs, hasDelim r = true) :
    (progsOf header n recs).length = recs.length := by
  induction recs generalizing n with
  | nil => simp [progsOf]
  | cons a rs ih =>
    have ha : hasDelim a = true := h a (List.mem_cons_self a rs)
    obtain ⟨umi, humi⟩ := Option.isSome_iff_exists.mp ha
    have hrs : ∀ r ∈ rs, hasDelim r = true := fun r hr => h r (List.mem_cons_of_mem a hr)
    simp [progsOf, progOf, humi, progressN, Nat.mod_one, ih (n + 1) hrs]

theorem run_closes_cases (env : Env) :
    (run env).closes = [] ∨ (run env).fatal = none ∨
      (run env).fatal = some .closeOutFail ∨ (run env).fatal = some .closeInFail := by
  simp only [run]
  split
  · left; rfl
  · split
    · split
      · left; rfl
      · split
        · split
          · right; left; rfl
          · right; right; right; rfl
        · right; right; left; rfl
    · left; rfl

/-- C1: for every record whose read name contains at least one colon, the
output record equals the input record except that its auxiliary region has
exactly one appended field: tag `RX` (bytes of 'R' and 'X'), type code 'Z',
payload the UMI token (substring after the last colon) followed by a
terminating null byte; the declared length `strlen(umi) + 1` passed to the
append equals the token length + 1 and the payload has exactly that many
bytes, so it is written in full. -/
theorem C1_rx_field_appended (header : Header) (aln : Bam1) (umi : List Char)
    (h : strrchrAfter aln.qname.data ':' = some umi) :
    (loop header oracleTrue oracleTrue 0 [Except.ok aln]).written =
      [⟨aln.core, aln.qname,
        aln.aux ++ (['R'.toNat, 'X'.toNat] ++ ['Z'.toNat] ++ (umi.map Char.toNat ++ [0])),
        aln.rest⟩]
    ∧ (umi.map Char.toNat ++ [0]).length = umi.length + 1 := by
  refine ⟨?_, by simp⟩
  simp only [loop, h, oracleTrue, if_true, loop_nil]
  simp [bam_aux_append, auxField_rx]

/-- C1 witness: concrete record with read name containing colons. -/
theorem C1_rx_field_appended_witness :
    strrchrAfter "a:ACGTGA".data ':' = some "ACGTGA".data
    ∧ ((loop ⟨["chr1"]⟩ oracleTrue oracleTrue 0
          [Except.ok ⟨⟨0, 41⟩, "a:ACGTGA", [5], [9]⟩]).written =
        [⟨⟨0, 41⟩, "a:ACGTGA",
          [5] ++ (['R'.toNat, 'X'.toNat] ++ ['Z'.toNat]
            ++ ("ACGTGA".data.map Char.toNat ++ [0])), [9]⟩]
      ∧ ("ACGTGA".data.map Char.toNat ++ [0]).length = "ACGTGA".data.length + 1) :=
  ⟨by decide,
   C1_rx_field_appended ⟨["chr1"]⟩ ⟨⟨0, 41⟩, "a:ACGTGA", [5], [9]⟩ "ACGTGA".data (by decide)⟩

/-- C2: an input of R records, all of whose read names contain a colon,
produces exactly R output records in input order; each output record is its
input record with one additional `RX` field and all other attributes (core,
read name, remaining bytes) unchanged, and the run exits 0. -/
theorem C2_record_count_invariant (header : Header) (recs : List Bam1)
    (h : ∀ r ∈ recs, hasDelim r = true) :
    (run (mkEnv header (recs.map Except.ok))).written = recs.map transform
    ∧ (run (mkEnv header (recs.map Except.ok))).written.length = recs.length
    ∧ (run (mkEnv header (recs.map Except.ok))).exitCode = 0
    ∧ ∀ r ∈ recs, ∃ umi, strrchrAfter r.qname.data ':' = some umi ∧
        transform r = ⟨r.core, r.qname,
          r.aux ++ (['R'.toNat, 'X'.toNat, 'Z'.toNat] ++ umi.map Char.toNat ++ [0]),
          r.rest⟩ := by
  have hr := run_allOk header recs h
  refine ⟨by rw [hr], by rw [hr]; simp, by rw [hr], ?_⟩
  intro r hrm
  obtain ⟨umi, humi⟩ := Option.isSome_iff_exists.mp (h r hrm)
  exact ⟨umi, humi, transform_of_some r umi humi⟩

/-- C2 witness: a concrete two-record input. -/
theorem C2_record_count_invariant_witness :
    (∀ r ∈ [(⟨⟨0, 41⟩, "a:ACGTGA", [], []⟩ : Bam1), ⟨⟨0, 99⟩, "b:TTTTTT", [7], []⟩],
        hasDelim r = true)
    ∧ ((run (mkEnv ⟨["chr1"]⟩
          ([(⟨⟨0, 41⟩, "a:ACGTGA", [], []⟩ : Bam1),
            ⟨⟨0, 99⟩, "b:TTTTTT", [7], []⟩].map Except.ok))).written =
        [(⟨⟨0, 41⟩, "a:ACGTGA", [], []⟩ : Bam1), ⟨⟨0, 99⟩, "b:TTTTTT", [7], []⟩].map transform
      ∧ (run (mkEnv ⟨["chr1"]⟩
          ([(⟨⟨0, 41⟩, "a:ACGTGA", [], []⟩ : Bam1),
            ⟨⟨0, 99⟩, "b:TTTTTT", [7], []⟩].map Except.ok))).written.length =
          [(⟨⟨0, 41⟩, "a:ACGTGA", [], []⟩ : Bam1), ⟨⟨0, 99⟩, "b:TTTTTT", [7], []⟩].length
      ∧ (run (mkEnv ⟨["chr1"]⟩
          ([(⟨⟨0, 41⟩, "a:ACGTGA", [], []⟩ : Bam1),
            ⟨⟨0, 99⟩, "b:TTTTTT", [7], []⟩].map Except.ok))).exitCode = 0
      ∧ ∀ r ∈ [(⟨⟨0, 41⟩, "a:ACGTGA", [], []⟩ : Bam1), ⟨⟨0, 99⟩, "b:TTTTTT", [7], []⟩],
          ∃ umi, strrchrAfter r.qname.data ':' = some umi ∧
            transform r = ⟨r.core, r.qname,
              r.aux ++ (['R'.toNat, 'X'.toNat, 'Z'.toNat] ++ umi.map Char.toNat ++ [0]),
              r.rest⟩) :=
  ⟨by decide,
   C2_record_count_invariant ⟨["chr1"]⟩
     [⟨⟨0, 41⟩, "a:ACGTGA", [], []⟩, ⟨⟨0, 99⟩, "b:TTTTTT", [7], []⟩] (by decide)⟩

/-- C3: when the record at position `pre.length` (0-based) has no colon in
its read name, the run exits with status 1 and the fatal no-delimiter
error; the output contains the header and exactly the transformed preceding
records — neither the offending record nor any later one is written, and no
summary is printed. -/
theorem C3_abort_no_delim (header : Header) (pre : List Bam1) (bad : Bam1) (rest : List Bam1)
    (hpre : ∀ r ∈ pre, hasDelim r = true)
    (hbad : strrchrAfter bad.qname.data ':' = none) :
    (run (mkEnv header ((pre ++ bad :: rest).map Except.ok))).exitCode = 1
    ∧ (run (mkEnv header ((pre ++ bad :: rest).map Except.ok))).written = pre.map transform
    ∧ (run (mkEnv header ((pre ++ bad :: rest).map Except.ok))).headerWritten = true
    ∧ (run (mkEnv header ((pre ++ bad :: rest).map Except.ok))).finishedMsg = none
    ∧ (run (mkEnv header ((pre ++ bad :: rest).map Except.ok))).fatal =
        some (.noDelim (stepDiag header pre.length bad)) := by
  have hr := run_noDelim header pre bad rest hpre hbad
  rw [hr]
  exact ⟨rfl, rfl, rfl, rfl, rfl⟩

/-- C3 witness: one good record, then a record without colon, then one more
record that must not be written. -/
theorem C3_abort_no_delim_witness :
    ((∀ r ∈ [(⟨⟨0, 41⟩, "a:ACGTGA", [], []⟩ : Bam1)], hasDelim r = true)
      ∧ strrchrAfter (Bam1.qname ⟨⟨0, 10⟩, "simple_no_colon", [], []⟩).data ':' = none)
    ∧ ((run (mkEnv ⟨["chr1"]⟩
          (([(⟨⟨0, 41⟩, "a:ACGTGA", [], []⟩ : Bam1)] ++
            (⟨⟨0, 10⟩, "simple_no_colon", [], []⟩ : Bam1) ::
            [(⟨⟨0, 7⟩, "c:GGGGGG", [], []⟩ : Bam1)]).map Except.ok))).exitCode = 1
      ∧ (run (mkEnv ⟨["chr1"]⟩
          (([(⟨⟨0, 41⟩, "a:ACGTGA", [], []⟩ : Bam1)] ++
            (⟨⟨0, 10⟩, "simple_no_colon", [], []⟩ : Bam1) ::
            [(⟨⟨0, 7⟩, "c:GGGGGG", [], []⟩ : Bam1)]).map Except.ok))).written =
          [(⟨⟨0, 41⟩, "a:ACGTGA", [], []⟩ : Bam1)].map transform
      ∧ (run (mkEnv ⟨["chr1"]⟩
          (([(⟨⟨0, 41⟩, "a:ACGTGA", [], []⟩ : Bam1)] ++
            (⟨⟨0, 10⟩, "simple_no_colon", [], []⟩ : Bam1) ::
            [(⟨⟨0, 7⟩, "c:GGGGGG", [], []⟩ : Bam1)]).map Except.ok))).headerWritten = true
      ∧ (run (mkEnv ⟨["chr1"]⟩
          (([(⟨⟨0, 41⟩, "a:ACGTGA", [], []⟩ : Bam1)] ++
            (⟨⟨0, 10⟩, "simple_no_colon", [], []⟩ : Bam1) ::
            [(⟨⟨0, 7⟩, "c:GGGGGG", [], []⟩ : Bam1)]).map Except.ok))).finishedMsg = none
      ∧ (run (mkEnv ⟨["chr1"]⟩
          (([(⟨⟨0, 41⟩, "a:ACGTGA", [], []⟩ : Bam1)] ++
            (⟨⟨0, 10⟩, "simple_no_colon", [], []⟩ : Bam1) ::
            [(⟨⟨0, 7⟩, "c:GGGGGG", [], []⟩ : Bam1)]).map Except.ok))).fatal =
          some (.noDelim (stepDiag ⟨["chr1"]⟩
            [(⟨⟨0, 41⟩, "a:ACGTGA", [], []⟩ : Bam1)].length
            ⟨⟨0, 10⟩, "simple_no_colon", [], []⟩))) :=
  ⟨⟨by decide, by decide⟩,
   C3_abort_no_delim ⟨["chr1"]⟩ [⟨⟨0, 41⟩, "a:ACGTGA", [], []⟩]
     ⟨⟨0, 10⟩, "simple_no_colon", [], []⟩ [⟨⟨0, 7⟩, "c:GGGGGG", [], []⟩]
     (by decide) (by decide)⟩

/-- C4 counterexample: a two-record run emits a progress line for every
record (2 lines for 2 records), refuting the claim that the indicator
appears only once every N records for an N in the thousands (which would
give at most one line here). -/
theorem C4_progress_counterexample :
    (run (mkEnv ⟨["chr1"]⟩ [Except.ok ⟨⟨0, 41⟩, "a:ACGTGA", [], []⟩,
        Except.ok ⟨⟨0, 99⟩, "b:TCTCTC", [], []⟩])).written.length = 2
    ∧ (run (mkEnv ⟨["chr1"]⟩ [Except.ok ⟨⟨0, 41⟩, "a:ACGTGA", [], []⟩,
        Except.ok ⟨⟨0, 99⟩, "b:TCTCTC", [], []⟩])).progress.length = 2 := by
  decide

/-- C4 amended: the progress interval in the source is the literal 1
(`read_num % 1 == 0`), so in a successful run a progress line is emitted
for every single record. -/
theorem C4_progress_every_record (header : Header) (recs : List Bam1)
    (h : ∀ r ∈ recs, hasDelim r = true) :
    progressN = 1
    ∧ (run (mkEnv header (recs.map Except.ok))).progress.length = recs.length := by
  refine ⟨rfl, ?_⟩
  rw [run_allOk header recs h]
  exact progsOf_length header recs 0 h

/-- C4 witness: concrete two-record input for the amended statement. -/
theorem C4_progress_every_record_witness :
    (∀ r ∈ [(⟨⟨0, 41⟩, "a:ACGTGA", [], []⟩ : Bam1), ⟨⟨0, 99⟩, "b:TCTCTC", [], []⟩],
        hasDelim r = true)
    ∧ (progressN = 1
      ∧ (run (mkEnv ⟨["chr1"]⟩
          ([(⟨⟨0, 41⟩, "a:ACGTGA", [], []⟩ : Bam1),
            ⟨⟨0, 99⟩, "b:TCTCTC", [], []⟩].map Except.ok))).progress.length =
          [(⟨⟨0, 41⟩, "a:ACGTGA", [], []⟩ : Bam1), ⟨⟨0, 99⟩, "b:TCTCTC", [], []⟩].length) :=
  ⟨by decide,
   C4_progress_every_record ⟨["chr1"]⟩
     [⟨⟨0, 41⟩, "a:ACGTGA", [], []⟩, ⟨⟨0, 99⟩, "b:TCTCTC", [], []⟩] (by decide)⟩

/-- C5 counterexample: a run that hits the fatal no-delimiter error exits
with status 1 having attempted no close at all on either handle, refuting
the claim that every fatal error path attempts to close the open handles. -/
theorem C5_close_counterexample :
    (run (mkEnv ⟨["chr1"]⟩ [Except.ok ⟨⟨0, 41⟩, "simple_no_colon", [], []⟩])).exitCode = 1
    ∧ (run (mkEnv ⟨["chr1"]⟩ [Except.ok ⟨⟨0, 41⟩, "simple_no_colon", [], []⟩])).fatal =
        some (.noDelim ⟨0, some "chr1", 42, "simple_no_colon"⟩)
    ∧ (run (mkEnv ⟨["chr1"]⟩ [Except.ok ⟨⟨0, 41⟩, "simple_no_colon", [], []⟩])).closes =
        [] := by
  decide

/-- C5 amended: every `exit(1)` site other than the two close-failure sites
terminates the process without attempting any close: whenever a run ends
with a fatal error that is not a close failure, the list of close attempts
is empty (closes happen only on the normal completion path, output before
input). -/
theorem C5_no_close_on_fatal (env : Env) (f : Fatal)
    (hf : (run env).fatal = some f) (hcf : f.isCloseFail = false) :
    (run env).closes = [] := by
  rcases run_closes_cases env with h | h | h | h
  · exact h
  · rw [h] at hf; cases hf
  · rw [h] at hf
    obtain rfl := Option.some.inj hf
    simp [Fatal.isCloseFail] at hcf
  · rw [h] at hf
    obtain rfl := Option.some.inj hf
    simp [Fatal.isCloseFail] at hcf

/-- C5 witness: the amended statement applied to a concrete fatal run. -/
theorem C5_no_close_on_fatal_witness :
    ((run (mkEnv ⟨["chr1"]⟩ [Except.ok ⟨⟨0, 41⟩, "simple_no_colon", [], []⟩])).fatal =
        some (.noDelim ⟨0, some "chr1", 42, "simple_no_colon"⟩)
      ∧ (Fatal.noDelim ⟨0, some "chr1", 42, "simple_no_colon"⟩).isCloseFail = false)
    ∧ (run (mkEnv ⟨["chr1"]⟩ [Except.ok ⟨⟨0, 41⟩, "simple_no_colon", [], []⟩])).closes =
        [] :=
  ⟨⟨by decide, by decide⟩,
   C5_no_close_on_fatal (mkEnv ⟨["chr1"]⟩ [Except.ok ⟨⟨0, 41⟩, "simple_no_colon", [], []⟩])
     (Fatal.noDelim ⟨0, some "chr1", 42, "simple_no_colon"⟩) (by decide) (by decide)⟩

/-- C6 counterexample: the very first record of the stream (ordinal 1 under
the claimed 1-based convention) lacks a colon; the diagnostic actually
printed carries read_number = 0 — the 0-based loop counter — and is not the
diagnostic with ordinal 1 that the claim requires. -/
theorem C6_diag_counterexample :
    (run (mkEnv ⟨["chr1"]⟩ [Except.ok ⟨⟨0, 42⟩, "simple_no_colon", [], []⟩])).fatal =
      some (.noDelim ⟨0, some "chr1", 43, "simple_no_colon"⟩)
    ∧ (run (mkEnv ⟨["chr1"]⟩ [Except.ok ⟨⟨0, 42⟩, "simple_no_colon", [], []⟩])).fatal ≠
      some (.noDelim ⟨1, some "chr1", 43, "simple_no_colon"⟩) := by
  decide

/-- C6 amended: the fatal no-delimiter diagnostic includes the record's
0-based ordinal index (the number of records already processed), the
reference-name lookup for its tid, the 1-based position `pos + 1`, and the
full read name. -/
theorem C6_diag_fields (header : Header) (pre : List Bam1) (bad : Bam1) (rest : List Bam1)
    (hpre : ∀ r ∈ pre, hasDelim r = true)
    (hbad : strrchrAfter bad.qname.data ':' = none) :
    (run (mkEnv header ((pre ++ bad :: rest).map Except.ok))).fatal =
      some (.noDelim
        ⟨pre.length, lookupChr header bad.core.tid, bad.core.pos + 1, bad.qname⟩) := by
  rw [run_noDelim header pre bad rest hpre hbad]
  rfl

/-- C6 witness: the amended statement on a record preceded by one good
record. -/
theorem C6_diag_fields_witness :
    ((∀ r ∈ [(⟨⟨0, 41⟩, "a:ACGTGA", [], []⟩ : Bam1)], hasDelim r = true)
      ∧ strrchrAfter (Bam1.qname ⟨⟨0, 10⟩, "no_delim_here", [], []⟩).data ':' = none)
    ∧ (run (mkEnv ⟨["chr1"]⟩
        (([(⟨⟨0, 41⟩, "a:ACGTGA", [], []⟩ : Bam1)] ++
          (⟨⟨0, 10⟩, "no_delim_here", [], []⟩ : Bam1) :: []).map Except.ok))).fatal =
      some (.noDelim
        ⟨[(⟨⟨0, 41⟩, "a:ACGTGA", [], []⟩ : Bam1)].length,
          lookupChr ⟨["chr1"]⟩ (Bam1.core ⟨⟨0, 10⟩, "no_delim_here", [], []⟩).tid,
          (Bam1.core ⟨⟨0, 10⟩, "no_delim_here", [], []⟩).pos + 1,
          Bam1.qname ⟨⟨0, 10⟩, "no_delim_here", [], []⟩⟩) :=
  ⟨⟨by decide, by decide⟩,
   C6_diag_fields ⟨["chr1"]⟩ [⟨⟨0, 41⟩, "a:ACGTGA", [], []⟩]
     ⟨⟨0, 10⟩, "no_delim_here", [], []⟩ [] (by decide) (by decide)⟩

/-- C7: a record whose UMI token length + terminator differs from 7 only
produces a warning: the warning line (with the record's context and the
observed length) is logged, the record is still transformed and written in
its place, and the run completes with exit status 0, the same written
output and summary count as for any all-delimited input. -/
theorem C7_length_warning_nonfatal (header : Header) (pre : List Bam1) (aln : Bam1)
    (post : List Bam1) (umi : List Char)
    (hpre : ∀ r ∈ pre, hasDelim r = true)
    (haln : strrchrAfter aln.qname.data ':' = some umi)
    (hpost : ∀ r ∈ post, hasDelim r = true)
    (hlen : umi.length + 1 ≠ 7) :
    (run (mkEnv header ((pre ++ aln :: post).map Except.ok))).exitCode = 0
    ∧ (run (mkEnv header ((pre ++ aln :: post).map Except.ok))).finishedMsg =
        some (pre ++ aln :: post).length
    ∧ (run (mkEnv header ((pre ++ aln :: post).map Except.ok))).written =
        (pre ++ aln :: post).map transform
    ∧ (⟨stepDiag header pre.length aln, umi.length + 1, ⟨umi⟩⟩ : UmiDiag) ∈
        (run (mkEnv header ((pre ++ aln :: post).map Except.ok))).warnings := by
  have hall : ∀ r ∈ pre ++ aln :: post, hasDelim r = true := by
    intro r hr
    rcases List.mem_append.mp hr with h1 | h2
    · exact hpre r h1
    · rcases List.mem_cons.mp h2 with h3 | h3
      · rw [h3]; simp [hasDelim, haln]
      · exact hpost r h3
  rw [run_allOk header (pre ++ aln :: post) hall]
  refine ⟨rfl, rfl, rfl, ?_⟩
  rw [warnsOf_append]
  simp only [warnsOf, Nat.zero_add]
  have hw : warnOf header pre.length aln =
      [⟨stepDiag header pre.length aln, umi.length + 1, ⟨umi⟩⟩] := by
    simp [warnOf, haln, hlen]
  simp [hw]

/-- C7 witness: a two-character UMI (length 3 with terminator) in the
middle of a three-record stream. -/
theorem C7_length_warning_nonfatal_witness :
    ((∀ r ∈ [(⟨⟨0, 41⟩, "a:ACGTGA", [], []⟩ : Bam1)], hasDelim r = true)
      ∧ strrchrAfter (Bam1.qname ⟨⟨0, 99⟩, "b:AC", [], []⟩).data ':' = some "AC".data
      ∧ (∀ r ∈ [(⟨⟨0, 7⟩, "c:GGGGGG", [], []⟩ : Bam1)], hasDelim r = true)
      ∧ "AC".data.length + 1 ≠ 7)
    ∧ ((run (mkEnv ⟨["chr1"]⟩
          (([(⟨⟨0, 41⟩, "a:ACGTGA", [], []⟩ : Bam1)] ++
            (⟨⟨0, 99⟩, "b:AC", [], []⟩ : Bam1) ::
            [(⟨⟨0, 7⟩, "c:GGGGGG", [], []⟩ : Bam1)]).map Except.ok))).exitCode = 0
      ∧ (run (mkEnv ⟨["chr1"]⟩
          (([(⟨⟨0, 41⟩, "a:ACGTGA", [], []⟩ : Bam1)] ++
            (⟨⟨0, 99⟩, "b:AC", [], []⟩ : Bam1) ::
            [(⟨⟨0, 7⟩, "c:GGGGGG", [], []⟩ : Bam1)]).map Except.ok))).finishedMsg =
          some ([(⟨⟨0, 41⟩, "a:ACGTGA", [], []⟩ : Bam1)] ++
            (⟨⟨0, 99⟩, "b:AC", [], []⟩ : Bam1) ::
            [(⟨⟨0, 7⟩, "c:GGGGGG", [], []⟩ : Bam1)]).length
      ∧ (run (mkEnv ⟨["chr1"]⟩
          (([(⟨⟨0, 41⟩, "a:ACGTGA", [], []⟩ : Bam1)] ++
            (⟨⟨0, 99⟩, "b:AC", [], []⟩ : Bam1) ::
            [(⟨⟨0, 7⟩, "c:GGGGGG", [], []⟩ : Bam1)]).map Except.ok))).written =
          ([(⟨⟨0, 41⟩, "a:ACGTGA", [], []⟩ : Bam1)] ++
            (⟨⟨0, 99⟩, "b:AC", [], []⟩ : Bam1) ::
            [(⟨⟨0, 7⟩, "c:GGGGGG", [], []⟩ : Bam1)]).map transform
      ∧ (⟨stepDiag ⟨["chr1"]⟩ [(⟨⟨0, 41⟩, "a:ACGTGA", [], []⟩ : Bam1)].length
            ⟨⟨0, 99⟩, "b:AC", [], []⟩,
          "AC".data.length + 1, ⟨"AC".data⟩⟩ : UmiDiag) ∈
          (run (mkEnv ⟨["chr1"]⟩
            (([(⟨⟨0, 41⟩, "a:ACGTGA", [], []⟩ : Bam1)] ++
              (⟨⟨0, 99⟩, "b:AC", [], []⟩ : Bam1) ::
              [(⟨⟨0, 7⟩, "c:GGGGGG", [], []⟩ : Bam1)]).map Except.ok))).warnings) :=
  ⟨⟨by decide, by decide, by decide, by decide⟩,
   C7_length_warning_nonfatal ⟨["chr1"]⟩ [⟨⟨0, 41⟩, "a:ACGTGA", [], []⟩]
     ⟨⟨0, 99⟩, "b:AC", [], []⟩ [⟨⟨0, 7⟩, "c:GGGGGG", [], []⟩] "AC".data
     (by decide) (by decide) (by decide) (by decide)⟩

/-- C8: the transformation is not idempotent: applying it twice to a record
(as when re-running the pipeline on its own output, the read name being
unchanged) appends a second `RX` field after the first instead of replacing
it — the auxiliary region ends with two identical RX-tagged fields and
differs from the singly-transformed region. -/
theorem C8_double_append (aln : Bam1) (umi : List Char)
    (h : strrchrAfter aln.qname.data ':' = some umi) :
    (transform (transform aln)).aux =
      aln.aux ++ (['R'.toNat, 'X'.toNat, 'Z'.toNat] ++ umi.map Char.toNat ++ [0])
        ++ (['R'.toNat, 'X'.toNat, 'Z'.toNat] ++ umi.map Char.toNat ++ [0])
    ∧ (transform (transform aln)).aux ≠ (transform aln).aux := by
  have h2 : strrchrAfter (transform aln).qname.data ':' = some umi := by
    rw [transform_qname]; exact h
  have t1 := transform_of_some aln umi h
  have t2 := transform_of_some (transform aln) umi h2
  constructor
  · rw [t2, t1]
  · rw [t2, t1]
    intro heq
    have hlen := congrArg List.length heq
    simp [List.length_append] at hlen

/-- C8 witness: double transformation of a concrete record. -/
theorem C8_double_append_witness :
    strrchrAfter (Bam1.qname ⟨⟨0, 41⟩, "a:ACGTGA", [3], []⟩).data ':' = some "ACGTGA".data
    ∧ ((transform (transform ⟨⟨0, 41⟩, "a:ACGTGA", [3], []⟩)).aux =
        [3] ++ (['R'.toNat, 'X'.toNat, 'Z'.toNat] ++ "ACGTGA".data.map Char.toNat ++ [0])
          ++ (['R'.toNat, 'X'.toNat, 'Z'.toNat] ++ "ACGTGA".data.map Char.toNat ++ [0])
      ∧ (transform (transform ⟨⟨0, 41⟩, "a:ACGTGA", [3], []⟩)).aux ≠
        (transform ⟨⟨0, 41⟩, "a:ACGTGA", [3], []⟩).aux) :=
  ⟨by decide, C8_double_append ⟨⟨0, 41⟩, "a:ACGTGA", [3], []⟩ "ACGTGA".data (by decide)⟩

/-- C9: the loop body computes `header->target_name[aln->core.tid]` for
every record before any check on tid (and before the delimiter check), so
in the total embedding the reference-name lookup of a record with negative
tid (unmapped, tid = -1) yields `none` rather than a name — as visible in
the no-delimiter diagnostic for such a record, whose chr slot is `none`. -/
theorem C9_negative_tid_lookup (header : Header) (aln : Bam1) (h : aln.core.tid < 0) :
    lookupChr header aln.core.tid = none
    ∧ (strrchrAfter aln.qname.data ':' = none →
        (loop header oracleTrue oracleTrue 0 [Except.ok aln]).result =
          .fail (.noDelim ⟨0, none, aln.core.pos + 1, aln.qname⟩)) := by
  have hl : lookupChr header aln.core.tid = none := by
    unfold lookupChr
    rw [dif_neg]
    rintro ⟨h1, _⟩
    omega
  refine ⟨hl, fun hn => ?_⟩
  rw [loop_noDelim header oracleTrue oracleTrue 0 aln [] hn]
  simp [stepDiag, hl]

/-- C9 witness: an unmapped record (tid = -1) without a colon. -/
theorem C9_negative_tid_lookup_witness :
    ((Bam1.core ⟨⟨-1, 5⟩, "no_colon_name", [], []⟩).tid < 0
      ∧ strrchrAfter (Bam1.qname ⟨⟨-1, 5⟩, "no_colon_name", [], []⟩).data ':' = none)
    ∧ (lookupChr ⟨["chr1"]⟩ (Bam1.core ⟨⟨-1, 5⟩, "no_colon_name", [], []⟩).tid = none
      ∧ (loop ⟨["chr1"]⟩ oracleTrue oracleTrue 0
          [Except.ok ⟨⟨-1, 5⟩, "no_colon_name", [], []⟩]).result =
        .fail (.noDelim ⟨0, none, (Bam1.core ⟨⟨-1, 5⟩, "no_colon_name", [], []⟩).pos + 1,
          Bam1.qname ⟨⟨-1, 5⟩, "no_colon_name", [], []⟩⟩)) :=
  ⟨⟨by decide, by decide⟩,
   ⟨(C9_negative_tid_lookup ⟨["chr1"]⟩ ⟨⟨-1, 5⟩, "no_colon_name", [], []⟩ (by decide)).1,
    (C9_negative_tid_lookup ⟨["chr1"]⟩ ⟨⟨-1, 5⟩, "no_colon_name", [], []⟩ (by decide)).2
      (by decide)⟩⟩

/-- C10: the loop stops on any non-positive `sam_read1` result, so a
mid-stream read error (a return below -1) after k good records is handled
exactly like end-of-stream: the run is byte-for-byte identical to the run
on the truncated input, prints the summary for k records, attempts both
closes, and exits with status 0. -/
theorem C10_read_error_as_eof (header : Header) (recs : List Bam1) (e : Int)
    (rest : List (Except Int Bam1))
    (h : ∀ r ∈ recs, hasDelim r = true) (he : e < -1) :
    run (mkEnv header (recs.map Except.ok ++ .error e :: rest)) =
      run (mkEnv header (recs.map Except.ok))
    ∧ (run (mkEnv header (recs.map Except.ok ++ .error e :: rest))).exitCode = 0
    ∧ (run (mkEnv header (recs.map Except.ok ++ .error e :: rest))).finishedMsg =
        some recs.length
    ∧ (run (mkEnv header (recs.map Except.ok ++ .error e :: rest))).closes =
        [.closeOut, .closeIn] := by
  have h1 := run_okPrefixErr header recs e rest h
  have h2 := run_allOk header recs h
  rw [h1, h2]
  exact ⟨rfl, rfl, rfl, rfl⟩

/-- C10 witness: a read error (-2) after one good record, with a further
record behind it that is never reached. -/
theorem C10_read_error_as_eof_witness :
    ((∀ r ∈ [(⟨⟨0, 41⟩, "a:ACGTGA", [], []⟩ : Bam1)], hasDelim r = true)
      ∧ (-2 : Int) < -1)
    ∧ (run (mkEnv ⟨["chr1"]⟩
          ([(⟨⟨0, 41⟩, "a:ACGTGA", [], []⟩ : Bam1)].map Except.ok ++
            .error (-2) :: [Except.ok ⟨⟨0, 7⟩, "c:GGGGGG", [], []⟩])) =
        run (mkEnv ⟨["chr1"]⟩ ([(⟨⟨0, 41⟩, "a:ACGTGA", [], []⟩ : Bam1)].map Except.ok))
      ∧ (run (mkEnv ⟨["chr1"]⟩
          ([(⟨⟨0, 41⟩, "a:ACGTGA", [], []⟩ : Bam1)].map Except.ok ++
            .error (-2) :: [Except.ok ⟨⟨0, 7⟩, "c:GGGGGG", [], []⟩]))).exitCode = 0
      ∧ (run (mkEnv ⟨["chr1"]⟩
          ([(⟨⟨0, 41⟩, "a:ACGTGA", [], []⟩ : Bam1)].map Except.ok ++
            .error (-2) :: [Except.ok ⟨⟨0, 7⟩, "c:GGGGGG", [], []⟩]))).finishedMsg =
          some [(⟨⟨0, 41⟩, "a:ACGTGA", [], []⟩ : Bam1)].length
      ∧ (run (mkEnv ⟨["chr1"]⟩
          ([(⟨⟨0, 41⟩, "a:ACGTGA", [], []⟩ : Bam1)].map Except.ok ++
            .error (-2) :: [Except.ok ⟨⟨0, 7⟩, "c:GGGGGG", [], []⟩]))).closes =
          [.closeOut, .closeIn]) :=
  ⟨⟨by decide, by decide⟩,
   C10_read_error_as_eof ⟨["chr1"]⟩ [⟨⟨0, 41⟩, "a:ACGTGA", [], []⟩] (-2)
     [Except.ok ⟨⟨0, 7⟩, "c:GGGGGG", [], []⟩] (by decide) (by decide)⟩

end UmiRx
